import Mathlib

/-!
Verification of the tinnitus sound-therapy generator (soundGeneratorAPI.js and
server.js) against its natural-language specification.

The JavaScript source is shallowly embedded:
* machine numbers are modelled exactly: 32-bit PRNG state as `ℕ` with explicit
  `% 2^32`, sample values and all real arithmetic as `ℚ` (JavaScript doubles are
  idealised as exact rationals);
* the transcendental library calls (`Math.sin`, `Math.cos`, `Math.log`,
  `Math.sqrt`) are abstracted as a function-record parameter `JsMath`, so every
  definition stays computable and the theorems hold for every choice of those
  functions; the raised-cosine ramp is additionally rendered over `ℝ` with the
  genuine `Real.cos` where a claim needs actual cosine values;
* stateful code (the xorshift PRNG threaded through block generation) is
  explicit state passing of the `ℕ` state word.
-/

-- ==================== Modulation parameters (from the paper) ====================

/-- Modulation depth (Eq 2, 3); `const d = 1.0` in the source. -/
def d : ℚ := 1

/-- Temporal modulation rate in Hz (Eq 2, 3); `const omega = 1.0`. -/
def omega : ℚ := 1

/-- Mean SMR in cycles/octave (Eq 5); `const mu = 4.5`. -/
def mu : ℚ := 4.5

/-- SMR variability in cycles/octave (Eq 5); `const r = 3.0`. -/
def r : ℚ := 3

/-- SMR rate in Hz (Eq 5); `const nu = 0.125`. -/
def nu : ℚ := 0.125

/-- Lower carrier limit in Hz; `const carrierMinHz = 1000`. -/
def carrierMinHz : ℚ := 1000

/-- Upper carrier limit in Hz; `const carrierMaxHz = 16000`. -/
def carrierMaxHz : ℚ := 16000

/-- The double value of `Math.PI`, idealised as a rational constant. -/
def MathPI : ℚ := 3.141592653589793

/-- `const TAU = Math.PI * 2`. -/
def TAU : ℚ := MathPI * 2

-- ==================== Table 1 band mapping ====================

/-- One frequency band for modulation, `{ name, lo, hi }` from the `BANDS` array. -/
structure Band where
  name : String
  lo : ℚ
  hi : ℚ
deriving DecidableEq, Repr

/-- The seven modulation bands of the source's `BANDS` array (paper Table 1). -/
def BANDS : List Band :=
  [⟨"1-2k", 1000, 2000⟩,
   ⟨"1.4-2.8k", 1400, 2800⟩,
   ⟨"2-4k", 2000, 4000⟩,
   ⟨"2.8-5.7k", 2800, 5700⟩,
   ⟨"4-8k", 4000, 8000⟩,
   ⟨"5.7-11k", 5700, 11000⟩,
   ⟨"8-16k", 8000, 16000⟩]

/-- The source's `MATCH_KEYS_KHZ` list of tinnitus-match reference keys (kHz). -/
def MATCH_KEYS_KHZ : List ℚ :=
  [1, 1.2, 1.4, 1.7, 2, 2.4, 2.8, 3.4, 4, 4.8, 5.7, 6.7, 8, 9.5, 11, 13, 16]

/-- One row of the source's `TABLE1_MAP`:
`{ a1, a2, c1, c2 }` — preferred/alternate active and sham band indices. -/
structure Table1Entry where
  a1 : ℕ
  a2 : Option ℕ
  c1 : ℕ
  c2 : Option ℕ
deriving DecidableEq, Repr

/-- The source's `TABLE1_MAP`, as an association list keyed by reference kHz. -/
def TABLE1_MAP : List (ℚ × Table1Entry) :=
  [(1,    ⟨0, none,   2, none⟩),
   (1.2,  ⟨0, none,   2, none⟩),
   (1.4,  ⟨0, none,   2, none⟩),
   (1.7,  ⟨1, some 0, 3, none⟩),
   (2,    ⟨1, none,   3, none⟩),
   (2.4,  ⟨2, some 1, 4, none⟩),
   (2.8,  ⟨2, none,   4, none⟩),
   (3.4,  ⟨3, some 2, 5, none⟩),
   (4,    ⟨3, none,   5, none⟩),
   (4.8,  ⟨4, some 3, 2, some 1⟩),
   (5.7,  ⟨4, none,   2, none⟩),
   (6.7,  ⟨5, some 4, 3, some 2⟩),
   (8,    ⟨5, none,   3, none⟩),
   (9.5,  ⟨5, none,   3, none⟩),
   (11,   ⟨6, none,   4, none⟩),
   (13,   ⟨6, none,   4, none⟩),
   (16,   ⟨6, none,   4, none⟩)]

/-- `TABLE1_MAP.get(key)` of the source's JS `Map`. -/
def table1Get (key : ℚ) : Option Table1Entry :=
  (TABLE1_MAP.find? (fun e => e.1 = key)).map (·.2)

/-- The scan loop inside `nearestMatchKeyKHz`: starting from `best`, replace it by
`k` whenever `|kHz - k| < |kHz - best|` (strict, so ties keep the earlier key). -/
def nearestGo (kHz : ℚ) : ℚ → List ℚ → ℚ
  | best, [] => best
  | best, k :: ks => nearestGo kHz (if |kHz - k| < |kHz - best| then k else best) ks

/-- The source's `nearestMatchKeyKHz(freqHz)`: divide by 1000, scan
`MATCH_KEYS_KHZ` keeping the key of smallest absolute distance. -/
def nearestMatchKeyKHz (freqHz : ℚ) : ℚ :=
  nearestGo (freqHz / 1000) (MATCH_KEYS_KHZ.headD 0) MATCH_KEYS_KHZ

/-- Active-band selection from `generateSoundFiles`:
`(useAltActive && mapEntry.a2 != null) ? mapEntry.a2 : mapEntry.a1`. -/
def selectActiveIdx (useAlt : Bool) (e : Table1Entry) : ℕ :=
  if useAlt && e.a2.isSome then e.a2.getD e.a1 else e.a1

/-- Sham-band selection from `generateSoundFiles`:
`(useAltSham && mapEntry.c2 != null) ? mapEntry.c2 : mapEntry.c1`. -/
def selectShamIdx (useAlt : Bool) (e : Table1Entry) : ℕ :=
  if useAlt && e.c2.isSome then e.c2.getD e.c1 else e.c1

/-- The active band index resolved by `generateSoundFiles` for a tinnitus
frequency: nearest match key, table lookup, then alternate/preferred selection. -/
def resolveActiveBandIdx (freqHz : ℚ) (useAlt : Bool) : Option ℕ :=
  (table1Get (nearestMatchKeyKHz freqHz)).map (selectActiveIdx useAlt)

/-- The sham band index resolved by `generateSoundFiles` for a tinnitus frequency. -/
def resolveShamBandIdx (freqHz : ℚ) (useAlt : Bool) : Option ℕ :=
  (table1Get (nearestMatchKeyKHz freqHz)).map (selectShamIdx useAlt)

-- ==================== PRNG (xorshift32, JS semantics) ====================

/-- Truncation to an unsigned 32-bit word: the `>>> 0` of the source. -/
def u32 (x : ℕ) : ℕ := x % 4294967296

/-- JavaScript's `x >> 17` on a value already reduced to `[0, 2^32)`: the operand
is reinterpreted as a signed 32-bit integer and shifted arithmetically, so when
bit 31 is set the vacated upper 17 bits are filled with ones
(`0xFFFF8000 = 2^32 - 2^15`). -/
def jsSar17 (x : ℕ) : ℕ :=
  if x < 2147483648 then x / 131072 else x / 131072 + 4294934528

/-- One `nextUint` state update of the source's `XorShift32`:
`x ^= x << 13; x >>>= 0; x ^= x >> 17; x >>>= 0; x ^= x << 5; x >>>= 0`,
with `<< 13`, `<< 5` as multiplication modulo `2^32` and `>> 17` as the
sign-extending JavaScript shift. -/
def xsStep (x : ℕ) : ℕ :=
  let a := u32 (x ^^^ u32 (x * 8192))
  let b := u32 (a ^^^ jsSar17 a)
  u32 (b ^^^ u32 (b * 32))

/-- Modelled from the spec: one step of the standard 32-bit xorshift recurrence
`state ^= state<<13; state ^= state>>17; state ^= state<<5`, each step truncated
to 32 bits, with `>>` the logical (zero-filling) right shift of an unsigned
32-bit word. Compared against the source's `xsStep`. -/
def xorshift32SpecStep (x : ℕ) : ℕ :=
  let a := u32 (x ^^^ u32 (x * 8192))
  let b := u32 (a ^^^ a / 131072)
  u32 (b ^^^ u32 (b * 32))

/-- The source constructor `this.state = (seed >>> 0) || 0x12345678`. -/
def xsInit (seed : ℕ) : ℕ :=
  if u32 seed = 0 then 305419896 else u32 seed

/-- `nextUint()`: advance the state and return the new state, paired with it. -/
def xsNextUint (s : ℕ) : ℕ × ℕ :=
  (xsStep s, xsStep s)

/-- `random()`: `nextUint() / 0x100000000`, a rational in `[0,1)`. -/
def xsRandom (s : ℕ) : ℚ × ℕ :=
  (((xsNextUint s).1 : ℚ) / 4294967296, (xsNextUint s).2)

/-- `uniform(a,b)`: `a + (b - a) * random()`. -/
def xsUniform (a b : ℚ) (s : ℕ) : ℚ × ℕ :=
  (a + (b - a) * (xsRandom s).1, (xsRandom s).2)

/-- The `k`-th value (0-indexed) returned by successive `nextUint()` calls on a
generator freshly seeded with `seed`. -/
def rngDraw (seed k : ℕ) : ℕ :=
  xsStep^[k + 1] (xsInit seed)

-- ==================== DSP helpers ====================

/-- Abstraction of the JavaScript `Math` transcendental calls used by the
synthesizer. Every synthesis theorem below holds for every `JsMath`, so nothing
depends on analytic properties of the actual library functions. -/
structure JsMath where
  sin : ℚ → ℚ
  cos : ℚ → ℚ
  log2 : ℚ → ℚ
  sqrt : ℚ → ℚ

/-- A concrete `JsMath` instance used by witnesses. -/
def M0 : JsMath :=
  { sin := fun _ => 0, cos := fun _ => 0, log2 := fun _ => 0, sqrt := fun _ => 0 }

/-- `Math.floor` of a nonnegative quantity, landing in `ℕ`. -/
def ratFloorToNat (q : ℚ) : ℕ := (⌊q⌋).toNat

/-- `Math.ceil` of a nonnegative quantity, landing in `ℕ`. -/
def ratCeilToNat (q : ℚ) : ℕ := (⌈q⌉).toNat

/-- The source's `raisedCosineRamp(i, nRamp, nTotal)`, with the cosine passed in
as a parameter: fade in over the first `nRamp` samples, fade out over the last
`nRamp` samples, multiplier 1 in between. -/
def raisedCosineRamp (cosf : ℚ → ℚ) (i nRamp nTotal : ℕ) : ℚ :=
  if nRamp = 0 then 1
  else if i < nRamp then
    1/2 * (1 - cosf (MathPI * ((i : ℚ) / (nRamp : ℚ))))
  else if nTotal - nRamp ≤ i then
    1/2 * (1 - cosf (MathPI * ((((nTotal : ℤ) - 1 - (i : ℤ)) : ℚ) / (nRamp : ℚ))))
  else 1

/-- The source's `raisedCosineRamp` rendered over `ℝ` with the genuine cosine
(`Math.cos` idealised as `Real.cos`, `Math.PI` as `Real.pi`); used for the
claims that depend on actual cosine values. -/
noncomputable def raisedCosineRampR (i nRamp nTotal : ℕ) : ℝ :=
  if nRamp = 0 then 1
  else if i < nRamp then
    1/2 * (1 - Real.cos (Real.pi * ((i : ℝ) / (nRamp : ℝ))))
  else if nTotal - nRamp ≤ i then
    1/2 * (1 - Real.cos (Real.pi * ((((nTotal : ℤ) - 1 - (i : ℤ)) : ℝ) / (nRamp : ℝ))))
  else 1

-- ==================== Block synthesizer ====================

/-- The parameter object of `generateBlock`. -/
structure BlockParams where
  fsHz : ℚ
  seconds : ℚ
  band : Band
  mode : String
  rampSec : ℚ
  targetPeak : ℚ
deriving DecidableEq

/-- `N = Math.floor(fsHz * seconds)` of `generateBlock`. -/
def blockN (p : BlockParams) : ℕ := ratFloorToNat (p.fsHz * p.seconds)

/-- `rampN = Math.floor(fsHz * rampSec)` of `generateBlock`. -/
def blockRampN (p : BlockParams) : ℕ := ratFloorToNat (p.fsHz * p.rampSec)

/-- Drawing `n` successive phases `uniform(0, TAU)`, threading the PRNG state;
used for the per-harmonic carrier phases `phi`. -/
def drawPhases : ℕ → ℕ → List ℚ × ℕ
  | 0, s => ([], s)
  | n + 1, s =>
    let head := xsUniform 0 TAU s
    let rest := drawPhases n head.2
    (head.1 :: rest.1, rest.2)

/-- Eq (5) array of `generateBlock`: `S[i] = mu + r * sin(pPhase + 2π ν t_i)`
with `t_i = i / fsHz` (the source's incremental `t += 1/fsHz` is exact in `ℚ`). -/
def smrS (M : JsMath) (fsHz pPhase : ℚ) (i : ℕ) : ℚ :=
  mu + r * M.sin (pPhase + TAU * nu * ((i : ℚ) / fsHz))

/-- The `W` array of `generateBlock`: `W[i] = 2π ω t_i`. -/
def omegaW (fsHz : ℚ) (i : ℕ) : ℚ :=
  TAU * omega * ((i : ℚ) / fsHz)

/-- One harmonic's contribution to output sample `i` in `generateBlock`:
modulation factor `A` (amplitude mode, Eq 2) or phase offset `psi` (phase mode,
Eq 3) applied only in band, then `A * sin(2π f t_i + phi + psi)` (Eq 1). -/
def harmonicTerm (M : JsMath) (p : BlockParams) (pPhase qPhase f0 c phi : ℚ) (n i : ℕ) : ℚ :=
  let freq := (n : ℚ) * f0
  let inBand := decide (p.band.lo ≤ freq ∧ freq ≤ p.band.hi)
  let Fn := M.log2 (freq / c)
  let modSin := M.sin (omegaW p.fsHz i + TAU * Fn * smrS M p.fsHz pPhase i + qPhase)
  let A := if inBand && (p.mode == "amplitude") then 1 + d * modSin else 1
  let psi := if inBand && (p.mode == "phase") then MathPI * (1 + d * modSin) else 0
  A * M.sin (TAU * freq * ((i : ℚ) / p.fsHz) + phi + psi)

/-- The pre-normalization body of `generateBlock`: draw `pPhase`, `qPhase`, `f0`,
determine the harmonic range `[ceil(1000/f0), floor(16000/f0)]`, draw one carrier
phase per harmonic, sum the harmonic terms per sample (Eq 1), and multiply by the
raised-cosine envelope. Returns the `N`-sample enveloped block. -/
def blockEnveloped (M : JsMath) (p : BlockParams) (rng : ℕ) : List ℚ :=
  let N := blockN p
  let rampN := blockRampN p
  let dp := xsUniform 0 TAU rng
  let dq := xsUniform 0 TAU dp.2
  let df := xsUniform 96 256 dq.2
  let f0 := df.1
  let nMin := ratCeilToNat (carrierMinHz / f0)
  let nMax := ratFloorToNat (carrierMaxHz / f0)
  let harmonics := (List.range (nMax + 1 - nMin)).map (· + nMin)
  let c := M.sqrt (p.band.lo * p.band.hi)
  let phis := (drawPhases harmonics.length df.2).1
  let raw : ℕ → ℚ := fun i =>
    ((harmonics.zip phis).map (fun np => harmonicTerm M p dp.1 dq.1 f0 c np.2 np.1 i)).sum
  (List.range N).map (fun i => raw i * raisedCosineRamp M.cos i rampN N)

/-- The fundamental frequency drawn by `generateBlock` (returned as `f0`). -/
def blockF0 (rng : ℕ) : ℚ :=
  (xsUniform 96 256 (xsUniform 0 TAU (xsUniform 0 TAU rng).2).2).1

/-- The PRNG state after `generateBlock` returns: two block phases, the
fundamental, then one phase per harmonic have been drawn. -/
def blockRngAfter (rng : ℕ) : ℕ :=
  let dp := xsUniform 0 TAU rng
  let dq := xsUniform 0 TAU dp.2
  let df := xsUniform 96 256 dq.2
  let nMin := ratCeilToNat (carrierMinHz / df.1)
  let nMax := ratFloorToNat (carrierMaxHz / df.1)
  (drawPhases (nMax + 1 - nMin) df.2).2

/-- The normalization pass at the end of `generateBlock`: the block peak is the
running maximum of absolute sample values, floored at `1e-9`; the whole block is
scaled by `min(1, targetPeak / peak)`. -/
def normalizeBlock (targetPeak : ℚ) (enveloped : List ℚ) : List ℚ :=
  let peak := enveloped.foldl (fun pk x => max pk |x|) (1 / 1000000000)
  let scale := min 1 (targetPeak / peak)
  enveloped.map (· * scale)

/-- The source's `generateBlock`: returns `({samples, f0}, advanced PRNG state)`. -/
def generateBlock (M : JsMath) (p : BlockParams) (rng : ℕ) : (List ℚ × ℚ) × ℕ :=
  ((normalizeBlock p.targetPeak (blockEnveloped M p rng), blockF0 rng),
   blockRngAfter rng)

-- ==================== WAV writer (PCM16) ====================

/-- Clamp a sample to `[-1, 1]` (`Math.max(-1, Math.min(1, x))` of `writePcm16`). -/
def clampUnit (x : ℚ) : ℚ := max (-1) (min 1 x)

/-- JavaScript's `Math.round` (round half toward positive infinity). -/
def jsRound (x : ℚ) : ℤ := ⌊x + 1/2⌋

/-- The source's `clamp16`: clamp an integer to the signed 16-bit range. -/
def clamp16 (x : ℤ) : ℤ :=
  if x > 32767 then 32767 else if x < -32768 then -32768 else x

/-- Quantization of `writePcm16`: clamp to `[-1,1]`, scale by 32767, round,
clamp to int16. -/
def pcm16 (samples : List ℚ) : List ℤ :=
  samples.map (fun x => clamp16 (jsRound (clampUnit x * 32767)))

/-- Little-endian byte pair of a signed 16-bit value (`buf.writeInt16LE`). -/
def int16leBytes (s : ℤ) : List ℕ :=
  let u := (s % 65536).toNat
  [u % 256, u / 256]

/-- The PCM payload bytes written for a list of float samples. -/
def pcmBytes (samples : List ℚ) : List ℕ :=
  ((pcm16 samples).map int16leBytes).flatten

/-- Little-endian bytes of a 16-bit field (`writeUInt16LE`). -/
def u16le (n : ℕ) : List ℕ := [n % 256, n / 256 % 256]

/-- Little-endian bytes of a 32-bit field (`writeUInt32LE`). -/
def u32le (n : ℕ) : List ℕ :=
  [n % 256, n / 256 % 256, n / 65536 % 256, n / 16777216 % 256]

/-- ASCII bytes of a literal tag such as `RIFF` (`header.write(...)`). -/
def asciiBytes (s : String) : List ℕ := s.toList.map Char.toNat

/-- The source's `writeWavHeader`: the 44-byte canonical RIFF/WAVE PCM header.
`finalizeWav` rewrites it with `dataBytes = fileBytes - 44`. -/
def wavHeader (sampleRate numChannels bitsPerSample dataBytes : ℕ) : List ℕ :=
  let byteRate := sampleRate * numChannels * (bitsPerSample / 8)
  let blockAlign := numChannels * (bitsPerSample / 8)
  let riffChunkSize := 36 + dataBytes
  asciiBytes "RIFF" ++ u32le riffChunkSize ++ asciiBytes "WAVE" ++ asciiBytes "fmt " ++
  u32le 16 ++ u16le 1 ++ u16le numChannels ++ u32le sampleRate ++ u32le byteRate ++
  u16le blockAlign ++ u16le bitsPerSample ++ asciiBytes "data" ++ u32le dataBytes

-- ==================== File generation (generateFile) ====================

/-- The fields of `generateFile`'s config that determine the synthesized bytes
(everything except the progress plumbing). -/
structure SynthCfg where
  sampleRate : ℕ
  minutes : ℚ
  blockSec : ℚ
  rampSec : ℚ
  mode : String
  targetPeak : ℚ
  seed : ℕ
deriving DecidableEq

/-- The full `generateFile` config: synthesis fields plus `progressScale`
(the `onProgress` callback itself carries no data and is left to the caller). -/
structure FileCfg where
  synth : SynthCfg
  progressScale : ℚ
deriving DecidableEq

/-- `blocks = Math.floor(totalSec / blockSec)` with `totalSec = minutes * 60`. -/
def fileBlocksCount (sc : SynthCfg) : ℕ :=
  ratFloorToNat (sc.minutes * 60 / sc.blockSec)

/-- `remainder = totalSec - blocks * blockSec`. -/
def fileRemainder (sc : SynthCfg) : ℚ :=
  sc.minutes * 60 - (fileBlocksCount sc : ℚ) * sc.blockSec

/-- `totalBlocks = blocks + (remainder > 1e-6 ? 1 : 0)`. -/
def fileTotalBlocks (sc : SynthCfg) : ℕ :=
  fileBlocksCount sc + (if fileRemainder sc > 1 / 1000000 then 1 else 0)

/-- The `BlockParams` handed to `generateBlock` by `generateFile` for a block of
`seconds` seconds. -/
def mkBlockParams (sc : SynthCfg) (band : Band) (seconds : ℚ) : BlockParams :=
  { fsHz := (sc.sampleRate : ℚ), seconds := seconds, band := band,
    mode := sc.mode, rampSec := sc.rampSec, targetPeak := sc.targetPeak }

/-- The whole-block loop of `generateFile`: synthesize `count` blocks of
`blockSec` seconds, threading the PRNG state, concatenating the samples. -/
def genBlocksLoop (M : JsMath) (sc : SynthCfg) (band : Band) : ℕ → ℕ → List ℚ × ℕ
  | 0, rng => ([], rng)
  | count + 1, rng =>
    let res := generateBlock M (mkBlockParams sc band sc.blockSec) rng
    let rest := genBlocksLoop M sc band count res.2
    (res.1.1 ++ rest.1, rest.2)

/-- All float samples written by one `generateFile` call: the whole blocks from a
generator freshly seeded with `seed`, then the remainder block iff
`remainder > 1e-6`. -/
def fileSamples (M : JsMath) (band : Band) (sc : SynthCfg) : List ℚ :=
  let main := genBlocksLoop M sc band (fileBlocksCount sc) (xsInit sc.seed)
  if fileRemainder sc > 1 / 1000000 then
    main.1 ++ (generateBlock M (mkBlockParams sc band (fileRemainder sc)) main.2).1.1
  else main.1

/-- One progress event as passed to `onProgress` by `generateFile`. -/
structure ProgressEvent where
  file : String
  block : ℕ
  totalBlocks : ℕ
  progress : ℚ
deriving DecidableEq

/-- The sequence of progress events emitted by one `generateFile` call: after
whole block `b+1` the fraction `((b+1)/totalBlocks) * progressScale`, and after
the remainder block (if any) the fraction `progressScale`. -/
def fileEvents (name : String) (cfg : FileCfg) : List ProgressEvent :=
  let blocks := fileBlocksCount cfg.synth
  let tb := fileTotalBlocks cfg.synth
  ((List.range blocks).map (fun b =>
    { file := name, block := b + 1, totalBlocks := tb,
      progress := ((b : ℚ) + 1) / (tb : ℚ) * cfg.progressScale })) ++
  (if fileRemainder cfg.synth > 1 / 1000000 then
    [{ file := name, block := blocks + 1, totalBlocks := tb,
       progress := cfg.progressScale }]
   else [])

/-- Everything one `generateFile` call produces: the finalized 44-byte header,
the PCM payload bytes, and the emitted progress events. -/
structure FileOutput where
  header : List ℕ
  pcm : List ℕ
  events : List ProgressEvent
deriving DecidableEq

/-- The source's `generateFile` as a pure function of its inputs: synthesize the
samples, quantize them, finalize the header from the payload length. -/
def generateFile (M : JsMath) (name : String) (band : Band) (cfg : FileCfg) :
    FileOutput :=
  let samples := fileSamples M band cfg.synth
  { header := wavHeader cfg.synth.sampleRate 1 16 (pcmBytes samples).length,
    pcm := pcmBytes samples,
    events := fileEvents name cfg }

-- ==================== Orchestrator (generateSoundFiles) ====================

/-- The request fields accepted by `generateSoundFiles`. -/
structure GenRequest where
  tinnitusHz : ℚ
  mode : String
  minutes : ℚ
  useAltActive : Bool
  useAltSham : Bool
  generateSham : Bool
deriving DecidableEq

/-- A progress event as re-emitted outward by `generateSoundFiles`' wrappers:
the inner event plus the adjusted fraction and the file role tag. -/
structure EmittedEvent where
  block : ℕ
  totalBlocks : ℕ
  progress : ℚ
  fileType : String
deriving DecidableEq

/-- Everything one `generateSoundFiles` run produces, in the success case. -/
structure GenOutcome where
  activeBand : Band
  shamBand : Band
  activeCfg : FileCfg
  shamCfg : Option FileCfg
  activeOut : FileOutput
  shamOut : Option FileOutput
  emittedActive : List EmittedEvent
  emittedSham : List EmittedEvent
deriving DecidableEq

/-- The body of `generateSoundFiles` once the table row is in hand: select the
bands, build the single shared config (sample rate 44100, 4 s blocks, 1 s ramps,
target peak 0.80, the one seed, `progressScale = 0.5` iff a sham file follows),
generate the active file, re-emit its events tagged `active` with the fraction
unchanged, then iff requested generate the sham file from the same config and
re-emit its events tagged `sham` with fraction `0.5 + p * 0.5`. -/
def generateSoundFilesCore (M : JsMath) (req : GenRequest) (seed : ℕ)
    (entry : Table1Entry) : GenOutcome :=
  let activeBand := BANDS.getD (selectActiveIdx req.useAltActive entry) ⟨"", 0, 0⟩
  let shamBand := BANDS.getD (selectShamIdx req.useAltSham entry) ⟨"", 0, 0⟩
  let sc : SynthCfg :=
    { sampleRate := 44100, minutes := req.minutes, blockSec := 4, rampSec := 1,
      mode := req.mode, targetPeak := 4/5, seed := seed }
  let cfg : FileCfg :=
    { synth := sc, progressScale := if req.generateSham then 1/2 else 1 }
  let activeOut := generateFile M "active" activeBand cfg
  let shamOut :=
    if req.generateSham then some (generateFile M "sham" shamBand cfg) else none
  { activeBand := activeBand,
    shamBand := shamBand,
    activeCfg := cfg,
    shamCfg := if req.generateSham then some cfg else none,
    activeOut := activeOut,
    shamOut := shamOut,
    emittedActive := activeOut.events.map (fun e =>
      { block := e.block, totalBlocks := e.totalBlocks,
        progress := e.progress, fileType := "active" }),
    emittedSham := ((shamOut.getD activeOut).events).map (fun e =>
      { block := e.block, totalBlocks := e.totalBlocks,
        progress := 1/2 + e.progress * (1/2), fileType := "sham" }) }

/-- The source's `generateSoundFiles`: map the tinnitus frequency to the nearest
match key, look up the Table 1 row (`none` models the thrown mapping error), and
run the core. The seed (`Date.now()` in the source) is a parameter. -/
def generateSoundFiles (M : JsMath) (req : GenRequest) (seed : ℕ) :
    Option GenOutcome :=
  (table1Get (nearestMatchKeyKHz req.tinnitusHz)).map
    (generateSoundFilesCore M req seed)

-- ==================== Server request validation (server.js) ====================

/-- A JavaScript number as far as the server's validation can observe it:
`NaN`, the two infinities, or a finite value. -/
inductive JsNum where
  | nan : JsNum
  | posInf : JsNum
  | negInf : JsNum
  | num : ℚ → JsNum
deriving DecidableEq

/-- JavaScript truthiness of a number: `0` and `NaN` are falsy (a missing field
coerces to `NaN` via `Number(undefined)`), everything else truthy. -/
def jsTruthy : JsNum → Bool
  | .nan => false
  | .num q => decide (q ≠ 0)
  | _ => true

/-- The JavaScript comparison `x <= 0`: false for `NaN` and `+Infinity`. -/
def jsLeZero : JsNum → Bool
  | .nan => false
  | .posInf => false
  | .negInf => true
  | .num q => decide (q ≤ 0)

/-- The only request validation in `server.js`:
`if (!tinnitusHz || tinnitusHz <= 0) -> 400 Invalid tinnitusHz`. -/
def serverRejects (tinnitusHz : JsNum) : Bool :=
  !jsTruthy tinnitusHz || jsLeZero tinnitusHz

/-- The parameters the server hands to `generateSoundFiles` when validation
passes: generation is invoked with exactly these request fields. -/
structure GenInvocation where
  tinnitusHz : JsNum
  minutes : JsNum
deriving DecidableEq

/-- The `/api/generate` handler's decision in `server.js`: reject with
`Invalid tinnitusHz` or proceed to synthesis with the given fields. No other
check happens before `generateSoundFiles` is called; in particular `minutes` is
never inspected. -/
def handleGenerate (tinnitusHz minutes : JsNum) : Except String GenInvocation :=
  if serverRejects tinnitusHz then .error "Invalid tinnitusHz"
  else .ok { tinnitusHz := tinnitusHz, minutes := minutes }

/-- Whether a duration lies outside the spec's `[5,120]` minutes range. -/
def minutesOutOfRange (m : ℚ) : Bool :=
  decide (m < 5 ∨ 120 < m)

-- ==================== Helper lemmas: PRNG ====================

/-- The PRNG state always stays below `2^32`. -/
lemma xsStep_lt (x : ℕ) : xsStep x < 4294967296 := by
  simp only [xsStep, u32]
  exact Nat.mod_lt _ (by norm_num)

-- ==================== Helper lemmas: nearest-key scan ====================

/-- Invariants of the `nearestMatchKeyKHz` scan loop: the result is the initial
candidate or a list element, it is at least as close as the initial candidate
and as every list element, and if it differs from the initial candidate it is
strictly closer. -/
lemma nearestGo_spec (x : ℚ) (l : List ℚ) :
    ∀ best : ℚ,
      (nearestGo x best l = best ∨ nearestGo x best l ∈ l) ∧
      |x - nearestGo x best l| ≤ |x - best| ∧
      (∀ k ∈ l, |x - nearestGo x best l| ≤ |x - k|) ∧
      (nearestGo x best l ≠ best → |x - nearestGo x best l| < |x - best|) := by
  induction l with
  | nil => intro best; simp [nearestGo]
  | cons k ks ih =>
    intro best
    by_cases h : |x - k| < |x - best|
    · have hg : nearestGo x best (k :: ks) = nearestGo x k ks := by
        simp [nearestGo, if_pos h]
      obtain ⟨m1, m2, m3, m4⟩ := ih k
      refine ⟨?_, ?_, ?_, ?_⟩
      · rcases m1 with h1 | h1
        · exact Or.inr (by rw [hg, h1]; exact List.mem_cons_self k ks)
        · exact Or.inr (by rw [hg]; exact List.mem_cons_of_mem k h1)
      · rw [hg]; exact le_trans m2 (le_of_lt h)
      · intro k2 hk2
        rcases List.mem_cons.mp hk2 with rfl | hk2
        · rw [hg]; exact m2
        · rw [hg]; exact m3 k2 hk2
      · intro _; rw [hg]; exact lt_of_le_of_lt m2 h
    · have hg : nearestGo x best (k :: ks) = nearestGo x best ks := by
        simp [nearestGo, if_neg h]
      obtain ⟨m1, m2, m3, m4⟩ := ih best
      push_neg at h
      refine ⟨?_, ?_, ?_, ?_⟩
      · rcases m1 with h1 | h1
        · exact Or.inl (hg ▸ h1)
        · exact Or.inr (by rw [hg]; exact List.mem_cons_of_mem k h1)
      · rw [hg]; exact m2
      · intro k2 hk2
        rcases List.mem_cons.mp hk2 with rfl | hk2
        · rw [hg]; exact le_trans m2 h
        · rw [hg]; exact m3 k2 hk2
      · intro hne
        rw [hg]
        exact m4 (by rw [hg] at hne; exact hne)

/-- First-occurrence tie-breaking of the scan loop: provided the initial
candidate does not occur in the (duplicate-free) list, every list element
occurring strictly before the position of the returned key is strictly farther
from the target than the returned key. -/
lemma nearestGo_first (x : ℚ) (l : List ℚ) :
    ∀ best : ℚ, best ∉ l → l.Nodup →
      ∀ l1 k l2, l = l1 ++ k :: l2 → nearestGo x best l ∈ l2 →
        |x - nearestGo x best l| < |x - k| := by
  induction l with
  | nil =>
    intro best _ _ l1 k l2 hsplit _
    exact absurd hsplit (by simp)
  | cons k0 ks ih =>
    intro best hnb hnd l1 k l2 hsplit hmem
    have hk0 : k0 ∉ ks := (List.nodup_cons.mp hnd).1
    have hndks : ks.Nodup := (List.nodup_cons.mp hnd).2
    by_cases h : |x - k0| < |x - best|
    · have hg : nearestGo x best (k0 :: ks) = nearestGo x k0 ks := by
        simp [nearestGo, if_pos h]
      cases l1 with
      | nil =>
        rw [List.nil_append, List.cons.injEq] at hsplit
        obtain ⟨rfl, rfl⟩ := hsplit
        rw [hg] at hmem ⊢
        have hne : nearestGo x k0 ks ≠ k0 := fun he => hk0 (he ▸ hmem)
        exact (nearestGo_spec x ks k0).2.2.2 hne
      | cons a l1x =>
        rw [List.cons_append, List.cons.injEq] at hsplit
        rw [hg] at hmem ⊢
        have hle := (nearestGo_spec x ks k0).2.1
        have := ih k0 hk0 hndks l1x k l2 hsplit.2 hmem
        exact this
    · have hg : nearestGo x best (k0 :: ks) = nearestGo x best ks := by
        simp [nearestGo, if_neg h]
      push_neg at h
      have hnbks : best ∉ ks := fun hb => hnb (List.mem_cons_of_mem _ hb)
      cases l1 with
      | nil =>
        rw [List.nil_append, List.cons.injEq] at hsplit
        obtain ⟨rfl, rfl⟩ := hsplit
        rw [hg] at hmem ⊢
        have hne : nearestGo x best ks ≠ best := fun he => hnbks (he ▸ hmem)
        exact lt_of_lt_of_le ((nearestGo_spec x ks best).2.2.2 hne) h
      | cons a l1x =>
        rw [List.cons_append, List.cons.injEq] at hsplit
        rw [hg] at hmem ⊢
        exact ih best hnbks hndks l1x k l2 hsplit.2 hmem

/-- The scan of `nearestMatchKeyKHz` starts with the head as candidate, so its
first iteration is a no-op and the run reduces to a scan of the tail. -/
lemma nearestMatchKey_eq_tail (f : ℚ) :
    nearestMatchKeyKHz f = nearestGo (f / 1000) 1 MATCH_KEYS_KHZ.tail := by
  show nearestGo (f / 1000)
      (if |f / 1000 - 1| < |f / 1000 - 1| then 1 else 1) MATCH_KEYS_KHZ.tail = _
  rw [ite_self]

-- ==================== Concrete evaluation facts ====================

section UnsealedEvaluation

-- Rational arithmetic is `@[irreducible]` upstream; re-enable unfolding locally
-- so that concrete facts about the embedded code can be settled by kernel
-- evaluation, without perturbing the symbolic proofs elsewhere.
attribute [local semireducible] Rat.mul Rat.inv Rat.add Rat.sub Rat.ofScientific

set_option maxRecDepth 100000 in
lemma one_notin_tail : (1 : ℚ) ∉ MATCH_KEYS_KHZ.tail := by decide

set_option maxRecDepth 100000 in
lemma tail_nodup : MATCH_KEYS_KHZ.tail.Nodup := by decide

set_option maxRecDepth 100000 in
lemma nearest_1050 : nearestMatchKeyKHz 1050 = 1 := by decide

set_option maxRecDepth 100000 in
lemma resolveActive_1050 : resolveActiveBandIdx 1050 false = some 0 := by decide

set_option maxRecDepth 100000 in
lemma bands_getD_0 : BANDS.getD 0 ⟨"", 0, 0⟩ = ⟨"1-2k", 1000, 2000⟩ := by decide

set_option maxRecDepth 100000 in
lemma resolveActive_4800_alt : resolveActiveBandIdx 4800 true = some 3 := by decide

set_option maxRecDepth 100000 in
lemma resolveActive_4800 : resolveActiveBandIdx 4800 false = some 4 := by decide

set_option maxRecDepth 100000 in
lemma bands_getD_3 : BANDS.getD 3 ⟨"", 0, 0⟩ = ⟨"2.8-5.7k", 2800, 5700⟩ := by decide

set_option maxRecDepth 100000 in
lemma two_mem_keys : (2 : ℚ) ∈ MATCH_KEYS_KHZ := by decide

end UnsealedEvaluation

-- ==================== C6 ====================

/-- C6: for every input frequency, `nearestMatchKeyKHz` returns a key from the
reference list whose absolute kHz-distance to the input is smallest, with ties
broken in favor of the first occurrence in table order (every key strictly
before the returned one is strictly farther); in particular 1050 Hz resolves to
the 1.0 kHz row and, with `useAltActive = false`, to active band index 0, the
lowest band 1–2 kHz. -/
theorem C6_nearest_match_key :
    (∀ f : ℚ, nearestMatchKeyKHz f ∈ MATCH_KEYS_KHZ) ∧
    (∀ f : ℚ, ∀ k ∈ MATCH_KEYS_KHZ,
        |f / 1000 - nearestMatchKeyKHz f| ≤ |f / 1000 - k|) ∧
    (∀ f : ℚ, ∀ l1 k l2, MATCH_KEYS_KHZ = l1 ++ k :: l2 →
        nearestMatchKeyKHz f ∈ l2 →
        |f / 1000 - nearestMatchKeyKHz f| < |f / 1000 - k|) ∧
    nearestMatchKeyKHz 1050 = 1 ∧
    resolveActiveBandIdx 1050 false = some 0 ∧
    BANDS.getD 0 ⟨"", 0, 0⟩ = ⟨"1-2k", 1000, 2000⟩ := by
  have htail : MATCH_KEYS_KHZ = 1 :: MATCH_KEYS_KHZ.tail := rfl
  have hnotmem := one_notin_tail
  have hnd := tail_nodup
  refine ⟨?_, ?_, ?_, nearest_1050, resolveActive_1050, bands_getD_0⟩
  · intro f
    rcases (nearestGo_spec (f / 1000) MATCH_KEYS_KHZ.tail 1).1 with h | h
    · rw [nearestMatchKey_eq_tail f, h]
      exact List.mem_cons_self 1 MATCH_KEYS_KHZ.tail
    · rw [nearestMatchKey_eq_tail f, htail]
      exact List.mem_cons_of_mem _ h
  · intro f k hk
    rw [nearestMatchKey_eq_tail f]
    rcases List.mem_cons.mp (htail ▸ hk) with rfl | hk2
    · exact (nearestGo_spec (f / 1000) MATCH_KEYS_KHZ.tail 1).2.1
    · exact (nearestGo_spec (f / 1000) MATCH_KEYS_KHZ.tail 1).2.2.1 k hk2
  · intro f l1 k l2 hsplit hmem
    rw [nearestMatchKey_eq_tail f] at hmem ⊢
    cases l1 with
    | nil =>
      rw [List.nil_append] at hsplit
      rw [htail, List.cons.injEq] at hsplit
      obtain ⟨rfl, rfl⟩ := hsplit
      have hne : nearestGo (f / 1000) 1 MATCH_KEYS_KHZ.tail ≠ 1 :=
        fun he => hnotmem (he ▸ hmem)
      exact (nearestGo_spec (f / 1000) MATCH_KEYS_KHZ.tail 1).2.2.2 hne
    | cons a l1x =>
      have h2 : MATCH_KEYS_KHZ.tail = l1x ++ k :: l2 := by
        rw [htail, List.cons_append, List.cons.injEq] at hsplit
        exact hsplit.2
      exact nearestGo_first (f / 1000) MATCH_KEYS_KHZ.tail 1 hnotmem hnd l1x k l2 h2 hmem

/-- C6 witness: the minimality clause instantiated at 1050 Hz against the
2.0 kHz key. -/
theorem C6_nearest_match_key_witness :
    (2 : ℚ) ∈ MATCH_KEYS_KHZ ∧
      |(1050 : ℚ) / 1000 - nearestMatchKeyKHz 1050| ≤ |(1050 : ℚ) / 1000 - 2| :=
  ⟨two_mem_keys, C6_nearest_match_key.2.1 1050 2 two_mem_keys⟩

-- ==================== C7 ====================

/-- C7: band selection returns the alternate index iff the `useAlternate` flag
is set and the row has an alternate for that role, else the preferred index;
for a 4800 Hz input with `useAltActive = true` the resolved active band index is
the documented alternate 3 (the 2.8–5.7 kHz band) rather than the preferred 4. -/
theorem C7_band_selection :
    (∀ (e : Table1Entry) (u : Bool) (v : ℕ), e.a2 = some v →
        selectActiveIdx u e = if u then v else e.a1) ∧
    (∀ (e : Table1Entry) (u : Bool), e.a2 = none → selectActiveIdx u e = e.a1) ∧
    (∀ (e : Table1Entry) (u : Bool) (v : ℕ), e.c2 = some v →
        selectShamIdx u e = if u then v else e.c1) ∧
    (∀ (e : Table1Entry) (u : Bool), e.c2 = none → selectShamIdx u e = e.c1) ∧
    resolveActiveBandIdx 4800 true = some 3 ∧
    resolveActiveBandIdx 4800 false = some 4 ∧
    BANDS.getD 3 ⟨"", 0, 0⟩ = ⟨"2.8-5.7k", 2800, 5700⟩ := by
  refine ⟨?_, ?_, ?_, ?_, resolveActive_4800_alt, resolveActive_4800, bands_getD_3⟩
  · intro e u v he
    cases u <;> simp [selectActiveIdx, he]
  · intro e u he
    cases u <;> simp [selectActiveIdx, he]
  · intro e u v he
    cases u <;> simp [selectShamIdx, he]
  · intro e u he
    cases u <;> simp [selectShamIdx, he]

/-- C7 witness: the alternate-selection clause instantiated at the 4.8 kHz row
with the flag set. -/
theorem C7_band_selection_witness :
    (Table1Entry.mk 4 (some 3) 2 (some 1)).a2 = some 3 ∧
      selectActiveIdx true ⟨4, some 3, 2, some 1⟩ = if true then 3 else 4 :=
  ⟨rfl, C7_band_selection.1 ⟨4, some 3, 2, some 1⟩ true 3 rfl⟩

-- ==================== C9 ====================

/-- C9 counterexample: the claim says the generator implements the 32-bit
xorshift recurrence with each step truncated to 32 bits, i.e. with logical
right shift on the unsigned word. At the reachable state `2^31` (the state a
constructor seed of `2^31` produces) the source's step — whose `x >> 17` is
JavaScript's sign-extending shift — differs from that recurrence. -/
theorem C9_xorshift_counterexample :
    xsInit 2147483648 = 2147483648 ∧
    xsStep 2147483648 = 2147991552 ∧
    xorshift32SpecStep 2147483648 = 2148024320 ∧
    xsStep 2147483648 ≠ xorshift32SpecStep 2147483648 := by
  refine ⟨by decide, by decide, by decide, by decide⟩

/-- C9 amended: the generator follows the xorshift32 recurrence with the middle
right shift taken as JavaScript's arithmetic shift on the signed 32-bit view —
it agrees with the standard (logical-shift) recurrence exactly on states whose
bit 31 is clear after the first xor/shift step; a zero seed is remapped to the
fixed constant `0x12345678`, the state stays a nonzero 32-bit word, `random()`
returns a value in `[0,1)`, and `uniform(a,b)` returns a value in `[a,b)`
whenever `a < b`. -/
theorem C9_xorshift_amended :
    xsInit 0 = 305419896 ∧
    (∀ s : ℕ, xsInit s ≠ 0 ∧ xsInit s < 4294967296) ∧
    (∀ x : ℕ, u32 (x ^^^ u32 (x * 8192)) < 2147483648 →
        xsStep x = xorshift32SpecStep x) ∧
    (∀ s : ℕ, 0 ≤ (xsRandom s).1 ∧ (xsRandom s).1 < 1) ∧
    (∀ (a b : ℚ) (s : ℕ), a < b →
        a ≤ (xsUniform a b s).1 ∧ (xsUniform a b s).1 < b) := by
  refine ⟨by decide, ?_, ?_, ?_, ?_⟩
  · intro s
    unfold xsInit
    split
    · exact ⟨by decide, by decide⟩
    · exact ⟨by assumption, Nat.mod_lt _ (by norm_num)⟩
  · intro x h
    simp only [xsStep, xorshift32SpecStep, jsSar17]
    rw [if_pos h]
  · intro s
    have h1 : (0 : ℚ) ≤ ((xsStep s : ℕ) : ℚ) := by positivity
    have h2 : ((xsStep s : ℕ) : ℚ) < 4294967296 := by
      exact_mod_cast xsStep_lt s
    constructor
    · simp only [xsRandom, xsNextUint]
      positivity
    · simp only [xsRandom, xsNextUint]
      rw [div_lt_one (by norm_num)]
      exact h2
  · intro a b s hab
    obtain ⟨hr0, hr1⟩ := (by
      have h1 : (0 : ℚ) ≤ ((xsStep s : ℕ) : ℚ) := by positivity
      have h2 : ((xsStep s : ℕ) : ℚ) < 4294967296 := by exact_mod_cast xsStep_lt s
      refine ⟨?_, ?_⟩
      · show (0 : ℚ) ≤ (xsRandom s).1
        simp only [xsRandom, xsNextUint]
        positivity
      · show (xsRandom s).1 < 1
        simp only [xsRandom, xsNextUint]
        rw [div_lt_one (by norm_num)]
        exact h2 : (0 : ℚ) ≤ (xsRandom s).1 ∧ (xsRandom s).1 < 1)
    constructor
    · simp only [xsUniform]
      nlinarith
    · simp only [xsUniform]
      nlinarith

/-- C9 witness: the `uniform` clause instantiated at `(a,b) = (0,1)` and state 5. -/
theorem C9_xorshift_amended_witness :
    (0 : ℚ) < 1 ∧ (0 : ℚ) ≤ (xsUniform 0 1 5).1 ∧ (xsUniform 0 1 5).1 < 1 :=
  ⟨by norm_num, (C9_xorshift_amended.2.2.2.2 0 1 5 (by norm_num)).1,
    (C9_xorshift_amended.2.2.2.2 0 1 5 (by norm_num)).2⟩

-- ==================== Helper lemmas: normalization and lengths ====================

/-- The running peak of the normalization pass is at least its initial value. -/
lemma foldl_absmax_init (l : List ℚ) :
    ∀ a : ℚ, a ≤ l.foldl (fun pk x => max pk |x|) a := by
  induction l with
  | nil => intro a; simp
  | cons y ys ih =>
    intro a
    simp only [List.foldl_cons]
    exact le_trans (le_max_left a |y|) (ih (max a |y|))

/-- The running peak of the normalization pass dominates every absolute sample. -/
lemma foldl_absmax_mem (l : List ℚ) :
    ∀ a : ℚ, ∀ x ∈ l, |x| ≤ l.foldl (fun pk x => max pk |x|) a := by
  induction l with
  | nil => intro a x hx; simp at hx
  | cons y ys ih =>
    intro a x hx
    simp only [List.foldl_cons]
    rcases List.mem_cons.mp hx with rfl | hx
    · exact le_trans (le_max_right a |x|) (foldl_absmax_init ys (max a |x|))
    · exact ih (max a |y|) x hx

/-- Every sample coming out of the normalization pass is bounded by the target
peak: the scale is at most `targetPeak / peak` and every pre-scale sample is at
most `peak` in magnitude. -/
lemma normalizeBlock_bound (tp : ℚ) (l : List ℚ) (htp : 0 < tp) :
    ∀ x ∈ normalizeBlock tp l, |x| ≤ tp := by
  intro x hx
  simp only [normalizeBlock, List.mem_map] at hx
  obtain ⟨y, hy, rfl⟩ := hx
  have hinit : (0 : ℚ) < 1 / 1000000000 := by norm_num
  have hpos : 0 < l.foldl (fun pk x => max pk |x|) (1 / 1000000000) :=
    lt_of_lt_of_le hinit (foldl_absmax_init l (1 / 1000000000))
  have hyle : |y| ≤ l.foldl (fun pk x => max pk |x|) (1 / 1000000000) :=
    foldl_absmax_mem l (1 / 1000000000) y hy
  have hs0 : 0 ≤ min 1 (tp / l.foldl (fun pk x => max pk |x|) (1 / 1000000000)) :=
    le_min (by norm_num) (le_of_lt (div_pos htp hpos))
  have hs1 : min 1 (tp / l.foldl (fun pk x => max pk |x|) (1 / 1000000000)) ≤
      tp / l.foldl (fun pk x => max pk |x|) (1 / 1000000000) := min_le_right _ _
  calc |y * min 1 (tp / l.foldl (fun pk x => max pk |x|) (1 / 1000000000))|
      = |y| * min 1 (tp / l.foldl (fun pk x => max pk |x|) (1 / 1000000000)) := by
        rw [abs_mul, abs_of_nonneg hs0]
    _ ≤ (l.foldl (fun pk x => max pk |x|) (1 / 1000000000)) *
          (tp / l.foldl (fun pk x => max pk |x|) (1 / 1000000000)) :=
        mul_le_mul hyle hs1 hs0 (le_of_lt hpos)
    _ = tp := mul_div_cancel₀ tp (ne_of_gt hpos)

/-- Normalization does not change the number of samples. -/
lemma normalizeBlock_length (tp : ℚ) (l : List ℚ) :
    (normalizeBlock tp l).length = l.length := by
  simp [normalizeBlock]

/-- The enveloped block has exactly `N = floor(fsHz * seconds)` samples. -/
lemma blockEnveloped_length (M : JsMath) (p : BlockParams) (rng : ℕ) :
    (blockEnveloped M p rng).length = blockN p := by
  simp [blockEnveloped]

/-- `generateBlock` returns exactly `N = floor(fsHz * seconds)` samples. -/
lemma generateBlock_length (M : JsMath) (p : BlockParams) (rng : ℕ) :
    (generateBlock M p rng).1.1.length = blockN p := by
  show (normalizeBlock p.targetPeak (blockEnveloped M p rng)).length = blockN p
  rw [normalizeBlock_length, blockEnveloped_length]

/-- The whole-block loop emits `count` blocks of `floor(fsHz * blockSec)`
samples each. -/
lemma genBlocksLoop_length (M : JsMath) (sc : SynthCfg) (band : Band) :
    ∀ count rng : ℕ,
      (genBlocksLoop M sc band count rng).1.length =
        count * blockN (mkBlockParams sc band sc.blockSec) := by
  intro count
  induction count with
  | zero => intro rng; simp [genBlocksLoop]
  | succ n ih =>
    intro rng
    simp only [genBlocksLoop, List.length_append, generateBlock_length, ih]
    ring

/-- Total sample count of one generated file: whole blocks plus the remainder
block exactly when `remainder > 1e-6`. -/
lemma fileSamples_length (M : JsMath) (band : Band) (sc : SynthCfg) :
    (fileSamples M band sc).length =
      fileBlocksCount sc * blockN (mkBlockParams sc band sc.blockSec) +
        (if fileRemainder sc > 1 / 1000000 then
          blockN (mkBlockParams sc band (fileRemainder sc)) else 0) := by
  simp only [fileSamples]
  by_cases h : fileRemainder sc > 1 / 1000000
  · rw [if_pos h, if_pos h, List.length_append, genBlocksLoop_length,
      generateBlock_length]
  · rw [if_neg h, if_neg h, genBlocksLoop_length]
    omega

-- ==================== C2 ====================

/-- C2: under both modulation modes, with the pipeline's target peak 0.80, every
sample of a block returned by `generateBlock` has absolute value at most 0.80 —
the block is scaled by `min(1, targetPeak / peak)` with the peak floored at a
small epsilon. Out-of-range indices read the default 0, also within the bound. -/
theorem C2_block_peak_bounded (M : JsMath) (p : BlockParams) (rng : ℕ) (i : ℕ)
    (htp : p.targetPeak = 4/5)
    (_hmode : p.mode = "amplitude" ∨ p.mode = "phase") :
    |(generateBlock M p rng).1.1.getD i 0| ≤ 4/5 := by
  have hbound : ∀ x ∈ (generateBlock M p rng).1.1, |x| ≤ 4/5 := by
    intro x hx
    have hx2 : x ∈ normalizeBlock p.targetPeak (blockEnveloped M p rng) := hx
    have := normalizeBlock_bound p.targetPeak (blockEnveloped M p rng)
      (by rw [htp]; norm_num) x hx2
    rw [htp] at this
    exact this
  by_cases hi : i < (generateBlock M p rng).1.1.length
  · rw [List.getD_eq_getElem _ _ hi]
    exact hbound _ (List.getElem_mem hi)
  · rw [List.getD_eq_default _ _ (le_of_not_lt hi)]
    norm_num

/-- A concrete block parameter record used by witnesses: the pipeline defaults
in amplitude mode. -/
def pAmp : BlockParams := ⟨44100, 4, ⟨"1-2k", 1000, 2000⟩, "amplitude", 1, 4/5⟩

/-- C2 witness: the bound instantiated at the default amplitude-mode parameters,
seed state 1, sample 0. -/
theorem C2_block_peak_bounded_witness :
    pAmp.targetPeak = 4/5 ∧ pAmp.mode = "amplitude" ∧
      |(generateBlock M0 pAmp 1).1.1.getD 0 0| ≤ 4/5 :=
  ⟨rfl, rfl, C2_block_peak_bounded M0 pAmp 1 0 rfl (Or.inl rfl)⟩

-- ==================== C8 ====================

/-- C8 counterexample: `generateBlock` sizes a block with `floor`, not `round`.
At sample rate 44100 and block duration `1/88200` s (reachable, since neither
the duration nor the remainder computation is constrained to half-sample
precision), `fsHz * seconds = 1/2`: the code emits `floor(1/2) = 0` samples
while the claimed `round(1/2) = 1`. -/
theorem C8_round_counterexample :
    (generateBlock M0 ⟨44100, 1/88200, ⟨"1-2k", 1000, 2000⟩, "phase", 1, 4/5⟩ 1).1.1.length = 0 ∧
    (round ((44100 : ℚ) * (1/88200))).toNat = 1 ∧
    (generateBlock M0 ⟨44100, 1/88200, ⟨"1-2k", 1000, 2000⟩, "phase", 1, 4/5⟩ 1).1.1.length ≠
      (round ((44100 : ℚ) * (1/88200))).toNat := by
  have h1 : (generateBlock M0 ⟨44100, 1/88200, ⟨"1-2k", 1000, 2000⟩, "phase", 1, 4/5⟩ 1).1.1.length = 0 := by
    rw [generateBlock_length]
    show (⌊(44100 : ℚ) * (1/88200)⌋).toNat = 0
    norm_num
  have h2 : (round ((44100 : ℚ) * (1/88200))).toNat = 1 := by
    rw [round_eq]
    norm_num
  exact ⟨h1, h2, by rw [h1, h2]; norm_num⟩

/-- C8 amended: every block has exactly `N = floor(sampleRate × duration)`
samples (`floor`, which agrees with `round` whenever `sampleRate × duration` has
fractional part below one half — in particular for all integer-second blocks at
44100 Hz); a 5-minute request at the pipeline's 44100 Hz / 4 s block settings
yields 75 whole blocks, a zero remainder (300 s is an exact multiple of 4 s),
and exactly `round(5×60×44100) = 13230000` emitted samples; and whenever the
remainder exceeds the `1e-6` s threshold, exactly one remainder block of
`floor(sampleRate × remainder)` samples is appended after the whole blocks. -/
theorem C8_sample_counts :
    (∀ (M : JsMath) (p : BlockParams) (rng : ℕ),
        (generateBlock M p rng).1.1.length = ratFloorToNat (p.fsHz * p.seconds)) ∧
    (∀ (M : JsMath) (band : Band) (sc : SynthCfg),
        sc.sampleRate = 44100 → sc.minutes = 5 → sc.blockSec = 4 →
        fileBlocksCount sc = 75 ∧ fileRemainder sc = 0 ∧
          (fileSamples M band sc).length = 13230000) ∧
    (∀ (M : JsMath) (band : Band) (sc : SynthCfg),
        fileRemainder sc > 1 / 1000000 →
        (fileSamples M band sc).length =
          fileBlocksCount sc * ratFloorToNat ((sc.sampleRate : ℚ) * sc.blockSec) +
            ratFloorToNat ((sc.sampleRate : ℚ) * fileRemainder sc)) := by
  refine ⟨?_, ?_, ?_⟩
  · intro M p rng
    exact generateBlock_length M p rng
  · intro M band sc hs hm hb
    have hc : fileBlocksCount sc = 75 := by
      rw [fileBlocksCount, hm, hb]
      show (⌊(5 : ℚ) * 60 / 4⌋).toNat = 75
      norm_num
      decide
    have hr : fileRemainder sc = 0 := by
      rw [fileRemainder, hc, hm, hb]
      norm_num
    refine ⟨hc, hr, ?_⟩
    rw [fileSamples_length, hc, hr]
    rw [if_neg (by norm_num)]
    show 75 * (⌊((sc.sampleRate : ℚ)) * sc.blockSec⌋).toNat + 0 = 13230000
    rw [hs, hb]
    norm_num
    decide
  · intro M band sc h
    rw [fileSamples_length, if_pos h]
    rfl

/-- A concrete synthesis config used by witnesses: a 5-minute request at the
pipeline defaults. -/
def sc5 : SynthCfg :=
  ⟨44100, 5, 4, 1, "phase", 4/5, 0⟩

/-- C8 witness: the 5-minute clause instantiated at the default config. -/
theorem C8_sample_counts_witness :
    sc5.sampleRate = 44100 ∧ sc5.minutes = 5 ∧ sc5.blockSec = 4 ∧
      fileBlocksCount sc5 = 75 ∧ fileRemainder sc5 = 0 ∧
      (fileSamples M0 ⟨"1-2k", 1000, 2000⟩ sc5).length = 13230000 :=
  ⟨rfl, rfl, rfl,
    (C8_sample_counts.2.1 M0 ⟨"1-2k", 1000, 2000⟩ sc5 rfl rfl rfl).1,
    (C8_sample_counts.2.1 M0 ⟨"1-2k", 1000, 2000⟩ sc5 rfl rfl rfl).2.1,
    (C8_sample_counts.2.1 M0 ⟨"1-2k", 1000, 2000⟩ sc5 rfl rfl rfl).2.2⟩

-- ==================== C3 ====================

/-- C3 counterexample: the claim puts the fade-in only on the first
`rampSec/2` seconds — 22050 samples at the 44100 Hz / 1 s-ramp defaults — and
asserts envelope multiplier 1 for every later interior sample. Sample 30000 of
the default 176400-sample block lies in that claimed interior (22050 ≤ 30000 and
30000 < 176400 − 22050), yet the code still ramps it: `rampN` is
`floor(fsHz * rampSec) = 44100`, so the envelope there is
`0.5·(1 − cos(π·30000/44100)) < 1`. -/
theorem C3_half_ramp_counterexample :
    22050 ≤ 30000 ∧ 30000 < 176400 - 22050 ∧
      raisedCosineRampR 30000 44100 176400 < 1 := by
  refine ⟨by norm_num, by norm_num, ?_⟩
  rw [raisedCosineRampR, if_neg (by norm_num : ¬ (44100 = 0)),
    if_pos (by norm_num : (30000 : ℕ) < 44100)]
  have hx : ((30000 : ℕ) : ℝ) / ((44100 : ℕ) : ℝ) = 30000 / 44100 := by
    norm_num
  rw [hx]
  have hlt : Real.pi * ((30000 : ℝ) / 44100) < Real.pi := by
    have hc : (30000 : ℝ) / 44100 < 1 := by norm_num
    nlinarith [Real.pi_pos]
  have h0 : 0 ≤ Real.pi * ((30000 : ℝ) / 44100) := by positivity
  have hcos : Real.cos Real.pi < Real.cos (Real.pi * ((30000 : ℝ) / 44100)) :=
    Real.cos_lt_cos_of_nonneg_of_le_pi h0 (le_refl Real.pi) hlt
  rw [Real.cos_pi] at hcos
  nlinarith [hcos]

/-- C3 amended: `generateBlock` applies the raised-cosine envelope
`0.5·(1 − cos(π·x))` to the first and the last `rampN = floor(fsHz · rampSec)`
samples of the block — a full 1-second fade-in and 1-second fade-out at the
default 44100 Hz sample rate and `rampSec = 1` (not 0.5 s each): the fade-in
formula on `i < rampN`, the fade-out formula (with `x` sweeping back to 0 via
`(nTotal − 1 − i)/rampN`) on `nTotal − rampN ≤ i` — and every sample with
`rampN ≤ i < N − rampN` passes through with envelope multiplier 1. -/
theorem C3_ramp_amended :
    (∀ i nRamp nTotal : ℕ, nRamp ≤ i → i + nRamp < nTotal →
        raisedCosineRampR i nRamp nTotal = 1) ∧
    (∀ i nRamp nTotal : ℕ, i < nRamp →
        raisedCosineRampR i nRamp nTotal =
          1/2 * (1 - Real.cos (Real.pi * ((i : ℝ) / (nRamp : ℝ))))) ∧
    (∀ i nRamp nTotal : ℕ, 0 < nRamp → nRamp ≤ i → nTotal - nRamp ≤ i →
        raisedCosineRampR i nRamp nTotal =
          1/2 * (1 - Real.cos (Real.pi *
            ((((nTotal : ℤ) - 1 - (i : ℤ)) : ℝ) / (nRamp : ℝ))))) ∧
    (∀ p : BlockParams, p.fsHz = 44100 → p.rampSec = 1 → blockRampN p = 44100) := by
  refine ⟨?_, ?_, ?_, ?_⟩
  · intro i nRamp nTotal h1 h2
    rw [raisedCosineRampR]
    rcases Nat.eq_zero_or_pos nRamp with h0 | h0
    · rw [if_pos h0]
    · rw [if_neg (by omega), if_neg (by omega), if_neg (by omega)]
  · intro i nRamp nTotal h1
    have h0 : nRamp ≠ 0 := by omega
    rw [raisedCosineRampR, if_neg h0, if_pos h1]
  · intro i nRamp nTotal h0 h1 h2
    rw [raisedCosineRampR, if_neg (by omega), if_neg (by omega), if_pos h2]
  · intro p hf hr
    rw [blockRampN, hf, hr]
    show (⌊(44100 : ℚ) * 1⌋).toNat = 44100
    norm_num
    decide

/-- C3 amended witness: the interior clause at sample 50000 of the default
block, the fade-in clause at sample 100, and the fade-out clause at sample
176000 (inside the last 44100 samples). -/
theorem C3_ramp_amended_witness :
    44100 ≤ 50000 ∧ 50000 + 44100 < 176400 ∧
      raisedCosineRampR 50000 44100 176400 = 1 ∧
      100 < 44100 ∧
      raisedCosineRampR 100 44100 176400 =
        1/2 * (1 - Real.cos (Real.pi * ((100 : ℕ) : ℝ) / ((44100 : ℕ) : ℝ))) ∧
      176400 - 44100 ≤ 176000 ∧
      raisedCosineRampR 176000 44100 176400 =
        1/2 * (1 - Real.cos (Real.pi *
          ((((176400 : ℤ) - 1 - ((176000 : ℕ) : ℤ)) : ℝ) / (((44100 : ℕ)) : ℝ)))) := by
  refine ⟨by norm_num, by norm_num, ?_, by norm_num, ?_, by norm_num, ?_⟩
  · exact C3_ramp_amended.1 50000 44100 176400 (by norm_num) (by norm_num)
  · rw [C3_ramp_amended.2.1 100 44100 176400 (by norm_num)]
    ring_nf
  · rw [C3_ramp_amended.2.2.1 176000 44100 176400 (by norm_num) (by norm_num)
      (by norm_num)]
    norm_num

-- ==================== C1 ====================

/-- C1: the file-generation pipeline is deterministic. The bytes written by
`generateFile` are a pure function of the seed and the synthesis request fields
(sample rate, minutes, block/ramp durations, modulation mode, target peak): two
runs whose configs agree on those fields — even if their progress plumbing
differs — produce the identical 44-byte header and identical PCM payload. -/
theorem C1_generateFile_deterministic (M : JsMath) (name1 name2 : String)
    (band : Band) (c1 c2 : FileCfg) (h : c1.synth = c2.synth) :
    (generateFile M name1 band c1).header = (generateFile M name2 band c2).header ∧
    (generateFile M name1 band c1).pcm = (generateFile M name2 band c2).pcm ∧
    (generateFile M name1 band c1).header.length = 44 := by
  refine ⟨?_, ?_, ?_⟩
  · show wavHeader c1.synth.sampleRate 1 16 (pcmBytes (fileSamples M band c1.synth)).length =
      wavHeader c2.synth.sampleRate 1 16 (pcmBytes (fileSamples M band c2.synth)).length
    rw [h]
  · show pcmBytes (fileSamples M band c1.synth) = pcmBytes (fileSamples M band c2.synth)
    rw [h]
  · show (wavHeader c1.synth.sampleRate 1 16 (pcmBytes (fileSamples M band c1.synth)).length).length = 44
    simp [wavHeader, u16le, u32le, asciiBytes]

/-- C1 witness: two configs sharing the synthesis fields but with different
progress scales produce byte-identical output. -/
theorem C1_generateFile_deterministic_witness :
    (FileCfg.mk sc5 1).synth = (FileCfg.mk sc5 (1/2)).synth ∧
    (generateFile M0 "active" ⟨"1-2k", 1000, 2000⟩ ⟨sc5, 1⟩).pcm =
      (generateFile M0 "sham" ⟨"1-2k", 1000, 2000⟩ ⟨sc5, 1/2⟩).pcm :=
  ⟨rfl, (C1_generateFile_deterministic M0 "active" "sham" ⟨"1-2k", 1000, 2000⟩
    ⟨sc5, 1⟩ ⟨sc5, 1/2⟩ rfl).2.1⟩

-- ==================== C10 ====================

/-- C10: when both files are requested, the active and the sham file are
synthesized from sequence generators initialized with the same seed — the core
builds one config carrying the one seed and hands it to both `generateFile`
calls — so the k-th pseudo-random draw of the sham synthesis equals the k-th
draw of the active synthesis, for every k. -/
theorem C10_shared_seed (M : JsMath) (req : GenRequest) (seed : ℕ)
    (entry : Table1Entry) (h : req.generateSham = true) :
    (generateSoundFilesCore M req seed entry).shamCfg =
      some (generateSoundFilesCore M req seed entry).activeCfg ∧
    (generateSoundFilesCore M req seed entry).activeCfg.synth.seed = seed ∧
    (∀ k : ℕ,
      rngDraw (((generateSoundFilesCore M req seed entry).shamCfg.getD
        (generateSoundFilesCore M req seed entry).activeCfg).synth.seed) k =
      rngDraw ((generateSoundFilesCore M req seed entry).activeCfg.synth.seed) k) := by
  have h1 : (generateSoundFilesCore M req seed entry).shamCfg =
      some (generateSoundFilesCore M req seed entry).activeCfg := by
    simp [generateSoundFilesCore, h]
  refine ⟨h1, rfl, fun k => ?_⟩
  rw [h1, Option.getD_some]

/-- A concrete request used by witnesses: zero-duration dual-file request. -/
def reqSham : GenRequest :=
  ⟨1000, "phase", 0, false, false, true⟩

/-- C10 witness: the shared-seed property at a concrete dual-file request. -/
theorem C10_shared_seed_witness :
    reqSham.generateSham = true ∧
    (generateSoundFilesCore M0 reqSham 7 ⟨0, none, 2, none⟩).shamCfg =
      some (generateSoundFilesCore M0 reqSham 7 ⟨0, none, 2, none⟩).activeCfg ∧
    rngDraw (((generateSoundFilesCore M0 reqSham 7 ⟨0, none, 2, none⟩).shamCfg.getD
        (generateSoundFilesCore M0 reqSham 7 ⟨0, none, 2, none⟩).activeCfg).synth.seed) 3 =
      rngDraw ((generateSoundFilesCore M0 reqSham 7 ⟨0, none, 2, none⟩).activeCfg.synth.seed) 3 :=
  ⟨rfl, (C10_shared_seed M0 reqSham 7 ⟨0, none, 2, none⟩ rfl).1,
    (C10_shared_seed M0 reqSham 7 ⟨0, none, 2, none⟩ rfl).2.2 3⟩

-- ==================== C4 ====================

/-- A concrete dual-file request of 6 seconds (1 whole 4 s block plus a 2 s
remainder block), used to exhibit the sham progress values. -/
def req6 : GenRequest :=
  ⟨1000, "phase", 1/10, false, false, true⟩

section UnsealedEvaluationTwo

attribute [local semireducible] Rat.mul Rat.inv Rat.add Rat.sub Rat.ofScientific

/-- C4 (code bug): the sham-file progress fractions actually emitted. With a
sham file requested, `generateFile` is called for the sham file with the same
config, whose `progressScale` is still `0.5`, and the sham wrapper then maps the
already-halved fraction again by `0.5 + p·0.5`. For the 6-second request (2
blocks) the emitted sham fractions are `[5/8, 3/4]`, not the claimed
`0.5 + 0.5·(k/K) = [3/4, 1]`; in particular the final sham event reports `3/4`,
never 1, contradicting the source's own comments (`active file is 0-50%`,
`Second file is 50-100%`). -/
theorem C4_sham_progress_bug :
    (generateSoundFilesCore M0 req6 0 ⟨0, none, 2, none⟩).emittedSham.map (fun e => e.progress) =
      [5/8, 3/4] ∧
    (generateSoundFilesCore M0 req6 0 ⟨0, none, 2, none⟩).emittedSham.map (fun e => e.progress) ≠
      [1/2 + 1/2 * (1/2), 1/2 + 1/2 * (2/2)] := by
  constructor
  · decide
  · decide

/-- C5 counterexample: a request whose duration (200 minutes) lies far outside
[5,120] — and whose target frequency is even non-finite (`+Infinity`) — passes
the server's only validation and proceeds to synthesis instead of being
rejected as InvalidRequest. -/
theorem C5_validation_counterexample :
    minutesOutOfRange 200 = true ∧
    handleGenerate (JsNum.num 1000) (JsNum.num 200) =
      Except.ok ⟨JsNum.num 1000, JsNum.num 200⟩ ∧
    handleGenerate JsNum.posInf (JsNum.num 200) =
      Except.ok ⟨JsNum.posInf, JsNum.num 200⟩ := by
  refine ⟨by decide, rfl, rfl⟩

end UnsealedEvaluationTwo

-- ==================== C5 ====================

/-- C5 amended: the server rejects a request as InvalidRequest exactly when the
target frequency is falsy (missing/NaN/zero) or compares `≤ 0` (negative or
−Infinity); the rejection happens before synthesis (the handler returns the
error instead of a generation invocation) and is independent of the duration,
which is never validated — out-of-range durations and a `+Infinity` frequency
are accepted. -/
theorem C5_validation_amended :
    (∀ t m : JsNum, handleGenerate t m = Except.error "Invalid tinnitusHz" ↔
        (jsTruthy t = false ∨ jsLeZero t = true)) ∧
    (∀ t m : JsNum, handleGenerate t m = Except.ok ⟨t, m⟩ ↔
        ¬(jsTruthy t = false ∨ jsLeZero t = true)) ∧
    (∀ t m1 m2 : JsNum,
        (handleGenerate t m1).isOk = (handleGenerate t m2).isOk) := by
  refine ⟨?_, ?_, ?_⟩
  · intro t m
    cases ht : jsTruthy t <;> cases hl : jsLeZero t <;>
      simp [handleGenerate, serverRejects, ht, hl]
  · intro t m
    cases ht : jsTruthy t <;> cases hl : jsLeZero t <;>
      simp [handleGenerate, serverRejects, ht, hl]
  · intro t m1 m2
    cases ht : jsTruthy t <;> cases hl : jsLeZero t <;>
      simp [handleGenerate, serverRejects, ht, hl, Except.isOk, Except.toBool]

/-- C5 amended witness: a zero target frequency is rejected as InvalidRequest. -/
theorem C5_validation_amended_witness :
    handleGenerate (JsNum.num 0) (JsNum.num 60) =
      Except.error "Invalid tinnitusHz" :=
  (C5_validation_amended.1 (JsNum.num 0) (JsNum.num 60)).mpr (Or.inl (by decide))
